import Mathlib

set_option maxRecDepth 16000

/-!
Verification development for the eccgen repository (matrix ingestion and
DSLX expression compilation for Hsiao SECDED codes).

The definitions below are a shallow embedding of the Python sources
`eccgen/matrix_parser.py` and `eccgen/dslx_codegen/dslx_codegen.py`.
Text files are represented as `String` (lists of characters), matrices as
`List (List Nat)`, and every Python raise site becomes a constructor of
the `EccError` type, carrying exactly the data interpolated into the
exception message at that raise site.
-/

/-- Character class of the regex token `\s` (ASCII whitespace, as used by
`re` on these ASCII files): space, tab, newline, carriage return, form
feed, vertical tab. -/
def isReSpace (c : Char) : Bool :=
  c == ' ' || c == '\t' || c == '\n' || c == '\r' || c == '\x0b' || c == '\x0c'

/-- Character class of the regex token `\w` (word character, ASCII):
letters, digits, underscore. Used for the word boundary `\b`. -/
def isWordChar (c : Char) : Bool :=
  c.isAlpha || c.isDigit || c == '_'

/-- Consume a literal character sequence from the front of a text,
returning the remainder, or `none` when the text does not start with it. -/
def consumeLit : List Char → List Char → Option (List Char)
  | [], s => some s
  | _, [] => none
  | p :: ps, c :: cs => if c == p then consumeLit ps cs else none

/-- Decimal value of a list of ASCII digits (the `int(...)` conversion of
a `\d+` regex capture). -/
def digitsToNat (ds : List Char) : Nat :=
  ds.foldl (fun a c => 10 * a + (c.toNat - '0'.toNat)) 0

/-- Match the regex `<label>\s*(\d+)` anchored at the start of `s`,
returning the captured number. The label stands for the fixed header text
such as `Number of data bits (k):`. -/
def headerMatchAt (label : List Char) (s : List Char) : Option Nat :=
  match consumeLit label s with
  | none => none
  | some rest =>
    let ds := (rest.dropWhile isReSpace).takeWhile Char.isDigit
    if ds.isEmpty then none else some (digitsToNat ds)

/-- Embedding of `re.search(r"<label>\s*(\d+)", text)` followed by
`int(....group(1))`: scan left to right for the first position where the
header pattern matches and return the captured integer; `none` when the
pattern occurs nowhere (in the Python source this `none` surfaces as an
`AttributeError` on `.group`). -/
def searchHeader (label : List Char) : List Char → Option Nat
  | [] => headerMatchAt label []
  | c :: cs =>
    match headerMatchAt label (c :: cs) with
    | some v => some v
    | none => searchHeader label cs

/-- Match the regex `{symbol}\s*=` anchored at the start of `s`, returning
the length of the match. -/
def symbolMatchLen (symbol : Char) (s : List Char) : Option Nat :=
  match s with
  | [] => none
  | c :: cs =>
    if c == symbol then
      let sp := cs.takeWhile isReSpace
      match cs.drop sp.length with
      | '=' :: _ => some (1 + sp.length + 1)
      | _ => none
    else none

/-- Embedding of `re.search(rf"\b{symbol}\s*=", text)` returning
`m_hdr.end()`, the index just past the `=` of the first match. The word
boundary `\b` holds at the start of the text or after a non word
character; `prevWord` records whether the previous character was a word
character, `i` is the index of the head of the remaining text. -/
def searchSymbolEnd (symbol : Char) (prevWord : Bool) (i : Nat) :
    List Char → Option Nat
  | [] => none
  | c :: cs =>
    match if prevWord then none else symbolMatchLen symbol (c :: cs) with
    | some len => some (i + len)
    | none => searchSymbolEnd symbol (isWordChar c) (i + 1) cs

/-- Embedding of `text.find(ch, start)`: index of the first occurrence of
`ch` at or after index `start`, `none` standing for the Python result -1. -/
def findCharFrom (ch : Char) (text : List Char) (start : Nat) : Option Nat :=
  match (text.drop start).findIdx? (fun c => c == ch) with
  | some j => some (start + j)
  | none => none

/-- Embedding of `text.rfind(ch)`: index of the last occurrence of `ch`,
`none` standing for the Python result -1. -/
def rfindChar (ch : Char) (text : List Char) : Option Nat :=
  match text.reverse.findIdx? (fun c => c == ch) with
  | some j => some (text.length - 1 - j)
  | none => none

/-- Embedding of the Python slice `text[a:b]`. -/
def pySlice (text : List Char) (a b : Nat) : List Char :=
  (text.drop a).take (b - a)

/-- Tokens of the bracketed nested list literal handed to
`ast.literal_eval`: brackets, commas and unsigned decimal integers (the
only literal shapes occurring in these matrix files). -/
inductive MatTok where
  | lb
  | rb
  | comma
  | num (v : Nat)
deriving DecidableEq, Repr

/-- Tokenizer for the bracketed literal; whitespace is skipped, any other
character makes the literal malformed. Fuel bounds the recursion; each
step consumes at least one character. -/
def tokenizeFuel : Nat → List Char → Option (List MatTok)
  | 0, _ => none
  | _, [] => some []
  | fuel + 1, c :: cs =>
    if isReSpace c then tokenizeFuel fuel cs
    else if c == '[' then (tokenizeFuel fuel cs).map (MatTok.lb :: ·)
    else if c == ']' then (tokenizeFuel fuel cs).map (MatTok.rb :: ·)
    else if c == ',' then (tokenizeFuel fuel cs).map (MatTok.comma :: ·)
    else if c.isDigit then
      let ds := (c :: cs).takeWhile Char.isDigit
      (tokenizeFuel fuel ((c :: cs).dropWhile Char.isDigit)).map
        (MatTok.num (digitsToNat ds) :: ·)
    else none

/-- Tokenize a character list, with enough fuel for the whole input. -/
def tokenize (cs : List Char) : Option (List MatTok) :=
  tokenizeFuel (cs.length + 1) cs

/-- Parse the items of an inner list after its first number has been read:
either the closing bracket, or a comma followed by a further number, with
a trailing comma before the closing bracket allowed (Python list
displays allow it). Returns the items and the unconsumed tokens. -/
def parseRowItems : List MatTok → List Nat → Option (List Nat × List MatTok)
  | MatTok.rb :: rest, acc => some (acc.reverse, rest)
  | MatTok.comma :: MatTok.rb :: rest, acc => some (acc.reverse, rest)
  | MatTok.comma :: MatTok.num v :: rest, acc => parseRowItems rest (v :: acc)
  | _, _ => none

/-- Parse one inner list (one matrix row) after its opening bracket. -/
def parseRow : List MatTok → Option (List Nat × List MatTok)
  | MatTok.rb :: rest => some ([], rest)
  | MatTok.num v :: rest => parseRowItems rest [v]
  | _ => none

/-- Parse the remaining rows of the outer list after at least one row has
been read: either the closing bracket, or a comma followed by a further
row, with a trailing comma allowed. -/
def parseRowsFuel : Nat → List MatTok → List (List Nat) →
    Option (List (List Nat) × List MatTok)
  | 0, _, _ => none
  | _, MatTok.rb :: rest, acc => some (acc.reverse, rest)
  | _ + 1, MatTok.comma :: MatTok.rb :: rest, acc => some (acc.reverse, rest)
  | fuel + 1, MatTok.comma :: MatTok.lb :: rest, acc =>
    match parseRow rest with
    | some (row, rest2) => parseRowsFuel fuel rest2 (row :: acc)
    | none => none
  | _, _, _ => none

/-- Embedding of `ast.literal_eval` on the bracketed region, evaluated as
a nested list of lists of integers (the shape the specification assigns
to these literals): the token stream must be one outer list whose items
are inner lists of numbers, with nothing left over. -/
def literalEvalMatrix (toks : List MatTok) : Option (List (List Nat)) :=
  match toks with
  | [MatTok.lb, MatTok.rb] => some []
  | MatTok.lb :: MatTok.lb :: rest =>
    match parseRow rest with
    | none => none
    | some (row, rest2) =>
      match parseRowsFuel (rest2.length + 1) rest2 [row] with
      | some (rows, []) => some rows
      | _ => none
  | _ => none

/-- Embedding of `arr.shape` for `np.array(mat, dtype=np.uint8)`: the
empty list gives the one dimensional shape `(0,)`; a nonempty list of
rows of one common length gives the two dimensional shape; rows of
differing lengths make the array construction fail (`none`). -/
def npShape (mat : List (List Nat)) : Option (List Nat) :=
  match mat with
  | [] => some [0]
  | row :: rest =>
    if rest.all (fun q => q.length == row.length) then
      some [mat.length, row.length]
    else none

/-- One constructor per raise site of the embedded Python code, each
carrying exactly the values interpolated into that exception message. -/
inductive EccError where
  /-- AttributeError raised by `.group(1)` when a header regex search
  returned `None`; its message is fixed text naming `NoneType` and
  mentions no file. -/
  | attributeNoneGroup
  /-- ValueError: Could not find `<symbol> =` in `<path>`. -/
  | symbolNotFound (symbol : Char) (path : String)
  /-- ValueError: Matrix bracket block not found in `<path>`. -/
  | bracketNotFound (path : String)
  /-- ValueError or SyntaxError raised inside `ast.literal_eval`; its
  message describes the literal and mentions no file. -/
  | literalEvalFailed
  /-- ValueError raised by `np.array` on rows of differing lengths; its
  message describes the inhomogeneous shape and mentions no file. -/
  | inhomogeneousShape
  /-- OverflowError raised by `np.array(..., dtype=np.uint8)` on an entry
  outside `[0, 255]`; its message mentions no file. -/
  | uint8OutOfBounds
  /-- ValueError: Non-binary entries in `<symbol>` matrix of `<path>`. -/
  | nonBinary (symbol : Char) (path : String)
  /-- ValueError: `<symbol>` shape `<actual>` does not match expected
  `<expected>` for `<path>`. -/
  | shapeMismatch (symbol : Char) (actual expected : List Nat) (path : String)
  /-- ValueError: k must be positive, got `<k>`. -/
  | kNotPositive (k : Int)
  /-- FileNotFoundError raised by `open(<path>)`. -/
  | fileNotFound (path : String)
  /-- ValueError: G and H matrices have different k: `<gPath>` and `<hPath>`. -/
  | differentK (gPath hPath : String)
  /-- ValueError: G and H matrices have different r: `<gPath>` and `<hPath>`. -/
  | differentR (gPath hPath : String)
  /-- ValueError: G and H matrices have different n: `<gPath>` and `<hPath>`. -/
  | differentN (gPath hPath : String)
deriving DecidableEq, Repr

/-- The file paths interpolated into the message of each error at its
raise site (empty when the message carries no path). -/
def errPaths : EccError → List String
  | EccError.attributeNoneGroup => []
  | EccError.symbolNotFound _ p => [p]
  | EccError.bracketNotFound p => [p]
  | EccError.literalEvalFailed => []
  | EccError.inhomogeneousShape => []
  | EccError.uint8OutOfBounds => []
  | EccError.nonBinary _ p => [p]
  | EccError.shapeMismatch _ _ _ p => [p]
  | EccError.kNotPositive _ => []
  | EccError.fileNotFound p => [p]
  | EccError.differentK g h => [g, h]
  | EccError.differentR g h => [g, h]
  | EccError.differentN g h => [g, h]

/-- Header label of the `k` line (the literal part of its regex). -/
def kLabel : List Char := "Number of data bits (k):".toList

/-- Header label of the `r` line (the literal part of its regex). -/
def rLabel : List Char := "Number of parity bits (r):".toList

/-- Header label of the `n` line (the literal part of its regex). -/
def nLabel : List Char := "Number of codeword bits (n):".toList

/-- Result of parsing one matrix file: the three header values and the
matrix. -/
abbrev ParsedFile := Nat × Nat × Nat × List (List Nat)

/-- Embedding of `_parse_matrix_file(path, symbol)` applied to the text
read from `path`: search the three headers (a failed search raises the
`AttributeError` of `.group` on `None`), locate `<symbol> =`, take the
region from the following `[` to the last `]` of the file, evaluate it as
a nested list literal, convert with `np.array(..., dtype=np.uint8)`
(rejecting ragged rows and entries outside `[0, 255]`, per NumPy), check
every entry is 0 or 1, then check the shape is `k × n` for G and `r × n`
for H. -/
def parse_matrix_file (path : String) (symbol : Char) (text : String) :
    Except EccError ParsedFile :=
  match searchHeader kLabel text.data with
  | none => Except.error EccError.attributeNoneGroup
  | some k =>
    match searchHeader rLabel text.data with
    | none => Except.error EccError.attributeNoneGroup
    | some r =>
      match searchHeader nLabel text.data with
      | none => Except.error EccError.attributeNoneGroup
      | some n =>
        match searchSymbolEnd symbol false 0 text.data with
        | none => Except.error (EccError.symbolNotFound symbol path)
        | some mEnd =>
          match findCharFrom '[' text.data mEnd, rfindChar ']' text.data with
          | some start, some stop =>
            if stop < start then Except.error (EccError.bracketNotFound path)
            else
              match tokenize (pySlice text.data start (stop + 1)) with
              | none => Except.error EccError.literalEvalFailed
              | some toks =>
                match literalEvalMatrix toks with
                | none => Except.error EccError.literalEvalFailed
                | some mat =>
                  match npShape mat with
                  | none => Except.error EccError.inhomogeneousShape
                  | some shape =>
                    if mat.all (fun row => row.all (fun v => decide (v < 256))) then
                      if mat.all (fun row => row.all (fun v => v == 0 || v == 1)) then
                        if shape == [(if symbol == 'G' then k else r), n] then
                          Except.ok (k, r, n, mat)
                        else
                          Except.error (EccError.shapeMismatch symbol shape
                            [(if symbol == 'G' then k else r), n] path)
                      else Except.error (EccError.nonBinary symbol path)
                    else Except.error EccError.uint8OutOfBounds
          | _, _ => Except.error (EccError.bracketNotFound path)

/-- File name of the generator matrix of width `k`
(`hsiao_G_k<k>.txt`). -/
def gFileName (k : Int) : String := "hsiao_G_k" ++ toString k ++ ".txt"

/-- File name of the parity-check matrix of width `k`
(`hsiao_H_k<k>.txt`). -/
def hFileName (k : Int) : String := "hsiao_H_k" ++ toString k ++ ".txt"

/-- Embedding of `os.path.join(dir, name)` for a directory path without a
trailing separator. -/
def pathJoin (dir name : String) : String := dir ++ "/" ++ name

/-- The per-width value stored in the returned mapping: `(r, n, G, H)`. -/
abbrev CodeEntry := Nat × Nat × List (List Nat) × List (List Nat)

/-- Embedding of the Python dict update `codes[k] = v`: replace the value
of an existing key in place, otherwise append the new key at the end
(dict insertion order). -/
def dictInsert (k : Nat) (v : CodeEntry) :
    List (Nat × CodeEntry) → List (Nat × CodeEntry)
  | [] => [(k, v)]
  | (k0, v0) :: rest =>
    if k0 == k then (k, v) :: rest else (k0, v0) :: dictInsert k v rest

/-- Loop body of `parse_g_and_h_files`: for each requested width `k`,
reject non-positive widths, read and parse the G file then the H file
(reading a file that the filesystem `fs` does not hold raises
FileNotFoundError), check the two header triples agree field by field,
and store the code under the key `k_g` declared in the G file header. -/
def parseGHLoop (fs : String → Option String) (matrixDir : String) :
    List Int → List (Nat × CodeEntry) → Except EccError (List (Nat × CodeEntry))
  | [], codes => Except.ok codes
  | k :: rest, codes =>
    if k ≤ 0 then Except.error (EccError.kNotPositive k)
    else
      match fs (pathJoin matrixDir (gFileName k)) with
      | none => Except.error (EccError.fileNotFound (pathJoin matrixDir (gFileName k)))
      | some gText =>
        match parse_matrix_file (pathJoin matrixDir (gFileName k)) 'G' gText with
        | Except.error e => Except.error e
        | Except.ok (kg, rg, ng, G) =>
          match fs (pathJoin matrixDir (hFileName k)) with
          | none => Except.error (EccError.fileNotFound (pathJoin matrixDir (hFileName k)))
          | some hText =>
            match parse_matrix_file (pathJoin matrixDir (hFileName k)) 'H' hText with
            | Except.error e => Except.error e
            | Except.ok (kh, rh, nh, H) =>
              if kg ≠ kh then
                Except.error (EccError.differentK
                  (pathJoin matrixDir (gFileName k)) (pathJoin matrixDir (hFileName k)))
              else if rg ≠ rh then
                Except.error (EccError.differentR
                  (pathJoin matrixDir (gFileName k)) (pathJoin matrixDir (hFileName k)))
              else if ng ≠ nh then
                Except.error (EccError.differentN
                  (pathJoin matrixDir (gFileName k)) (pathJoin matrixDir (hFileName k)))
              else
                parseGHLoop fs matrixDir rest (dictInsert kg (rg, ng, G, H) codes)

/-- Embedding of `parse_g_and_h_files(matrix_dir, k_list)`, with the
filesystem passed explicitly as a partial map from paths to file text. -/
def parse_g_and_h_files (fs : String → Option String) (matrixDir : String)
    (kList : List Int) : Except EccError (List (Nat × CodeEntry)) :=
  parseGHLoop fs matrixDir kList []

/-- Column `j` of a matrix stored as a list of rows (the NumPy indexing
`M[:, j]`); rows shorter than `j + 1` would be an index error in NumPy
and contribute the default 0 here. -/
def column (M : List (List Nat)) (j : Nat) : List Nat :=
  M.map (fun row => row.getD j 0)

/-- Embedding of `G_col_to_x(col, col_idx)`: the row indices of the
nonzero entries of the column (`np.nonzero(col)[0]`, in increasing
order), one XOR operand `m[<i>+:u1]` per index, joined with ` ^ ` into
one binding for `parity_<col_idx>`. -/
def G_col_to_x (col : List Nat) (colIdx : Nat) : String :=
  let nonzero := (List.range col.length).filter (fun i => col.getD i 0 != 0)
  let xors := nonzero.map (fun i => "m[" ++ toString i ++ "+:u1]")
  "            let parity_" ++ toString colIdx ++ " = " ++
    String.intercalate " ^ " xors ++ ";"

/-- Splitting of a character list at newline characters (the line
structure that `textwrap.indent` works through for texts made of plain
newline terminated lines). -/
def splitLinesAux (cur : List Char) : List Char → List (List Char)
  | [] => [cur.reverse]
  | c :: cs =>
    if c == '\n' then cur.reverse :: splitLinesAux [] cs
    else splitLinesAux (c :: cur) cs

/-- Embedding of `textwrap.indent(text, pre)` for texts whose lines are
separated by plain newlines: the prefix is added to every line that
contains a non whitespace character. -/
def textwrapIndent (pre s : String) : String :=
  String.intercalate "\n"
    ((splitLinesAux [] s.data).map
      (fun l => if l.all isReSpace then String.mk l else pre ++ String.mk l))

/-- Embedding of `G_to_x(G, r)`: one parity binding per parity index `i`
in `0..r-1` from column `k + i` of G, then the final value concatenating
`parity_<r-1>` down to `parity_0`, cast to the shared maximum parity
width and indented by twelve spaces. -/
def G_to_x (G : List (List Nat)) (r : Nat) : String :=
  let k := G.length
  let letParityBit := (List.range r).map (fun i => G_col_to_x (column G (k + i)) i)
  let names := (List.range r).map (fun i => "parity_" ++ toString (r - i - 1))
  let expr := "(" ++ String.intercalate " ++ " names ++ ") as uN[MAX_PARITY_WIDTH]"
  String.intercalate "\n" (letParityBit ++ [textwrapIndent "            " expr])

/-- Embedding of `syndrome_bit_to_x(row, row_idx)`: the column indices of
the nonzero entries of the row, one XOR operand `cw[<i>+:u1]` per index,
joined with ` ^ ` into one binding for `syndrome_<row_idx>`. -/
def syndrome_bit_to_x (row : List Nat) (rowIdx : Nat) : String :=
  let nonzero := (List.range row.length).filter (fun j => row.getD j 0 != 0)
  let xors := nonzero.map (fun j => "cw[" ++ toString j ++ "+:u1]")
  "            let syndrome_" ++ toString rowIdx ++ " = " ++
    String.intercalate " ^ " xors ++ ";"

/-- Embedding of `syndrome_to_x(H)`: row `i` of H yields the binding
labeled `r - i - 1` (row 0 is the most significant syndrome bit), then
the final `syndrome` value concatenating `syndrome_<r-1>` down to
`syndrome_0`, cast to the shared maximum parity width. -/
def syndrome_to_x (H : List (List Nat)) : String :=
  let r := H.length
  let lets := (List.range r).map
    (fun i => syndrome_bit_to_x (H.getD i []) (r - i - 1))
  let names := (List.range r).map (fun i => "syndrome_" ++ toString (r - i - 1))
  let expr := "(" ++ String.intercalate " ++ " names ++ ") as uN[MAX_PARITY_WIDTH]"
  String.intercalate "\n"
    (lets ++ [textwrapIndent "            " ("let syndrome = " ++ expr ++ ";")])

/-- Embedding of `H_col_to_x(col, col_idx)`: a width-`r` binary literal
`u<r>:0b...` whose digits are the column entries from top row to bottom
row (`"".join(col.astype(str))`), cast to the shared maximum parity
width. -/
def H_col_to_x (col : List Nat) (colIdx : Nat) : String :=
  "            let parity_check_matrix_" ++ toString colIdx ++ " = u" ++
    toString col.length ++ ":0b" ++
    String.join (col.map (fun v => toString v)) ++ " as uN[MAX_PARITY_WIDTH];"

/-- Embedding of `H_to_x(H)`: one literal constant per codeword column
`0..n-1`, then the combined table concatenating column `n-1` down to
column 0. -/
def H_to_x (H : List (List Nat)) : String :=
  let n := (H.getD 0 []).length
  let lets := (List.range n).map (fun i => H_col_to_x (column H i) i)
  let names := (List.range n).map
    (fun i => "parity_check_matrix_" ++ toString (n - i - 1))
  let expr := "let parity_check_matrix = " ++ String.intercalate " ++ " names ++ ";"
  String.intercalate "\n" (lets ++ [textwrapIndent "            " expr])

/-- The encoder fragment mapping built by
`render_encoder_jinja2_template`: one fragment `secded_enc_<n>_<k>` per
code, bound to the compiled encoder expression. -/
def render_encoder_mapping (codes : List (Nat × CodeEntry)) : List (String × String) :=
  codes.map (fun p =>
    ("secded_enc_" ++ toString p.2.2.1 ++ "_" ++ toString p.1,
     G_to_x p.2.2.2.1 p.2.1))

/-- The decoder fragment mapping built by
`render_decoder_jinja2_template`: fragments `secded_dec_syndrome_<n>_<k>`
and `secded_dec_H_<n>_<k>` per code. -/
def render_decoder_mapping (codes : List (Nat × CodeEntry)) : List (String × String) :=
  codes.flatMap (fun p =>
    [("secded_dec_syndrome_" ++ toString p.2.2.1 ++ "_" ++ toString p.1,
      syndrome_to_x p.2.2.2.2),
     ("secded_dec_H_" ++ toString p.2.2.1 ++ "_" ++ toString p.1,
      H_to_x p.2.2.2.2)])

/-- Embedding of `main` up to template substitution: parse all requested
widths, then compile the encoder and decoder fragment mappings. Any
parse failure aborts before any expression compilation. -/
def main_run (fs : String → Option String) (matrixDir : String)
    (kList : List Int) :
    Except EccError (List (String × String) × List (String × String)) :=
  match parse_g_and_h_files fs matrixDir kList with
  | Except.error e => Except.error e
  | Except.ok codes => Except.ok (render_encoder_mapping codes, render_decoder_mapping codes)

/-- Decoder of a binary digit string (most significant bit first) back
into the list of bits it displays, top row first. -/
def decodeBits : List Char → Option (List Nat)
  | [] => some []
  | c :: cs =>
    if c == '0' then (decodeBits cs).map (fun l => 0 :: l)
    else if c == '1' then (decodeBits cs).map (fun l => 1 :: l)
    else none

deriving instance DecidableEq for Except

instance : DecidableEq CodeEntry :=
  inferInstanceAs (DecidableEq (Nat × Nat × List (List Nat) × List (List Nat)))

instance : DecidableEq ParsedFile :=
  inferInstanceAs (DecidableEq (Nat × Nat × Nat × List (List Nat)))

/-- Concrete generator matrix file text declaring `k = 2`, `r = 1`,
`n = 3` with a 2 by 3 systematic G. -/
def gTextA : String :=
  "Number of data bits (k): 2\nNumber of parity bits (r): 1\nNumber of codeword bits (n): 3\nG=[[1,0,1],[0,1,1]]\n"

/-- Concrete parity-check matrix file text declaring `k = 2`, `r = 1`,
`n = 3` with a 1 by 3 H. -/
def hTextA : String :=
  "Number of data bits (k): 2\nNumber of parity bits (r): 1\nNumber of codeword bits (n): 3\nH=[[1,1,1]]\n"

/-- Concrete parity-check matrix file text declaring `k = 3`, `r = 1`,
`n = 4`, disagreeing with `gTextA` on `k` and `n`. -/
def hTextB : String :=
  "Number of data bits (k): 3\nNumber of parity bits (r): 1\nNumber of codeword bits (n): 4\nH=[[1,1,1,1]]\n"

/-- Concrete generator matrix file text whose matrix holds the entry 256,
outside the uint8 range. -/
def gTextOV : String :=
  "Number of data bits (k): 1\nNumber of parity bits (r): 1\nNumber of codeword bits (n): 2\nG=[[1,256]]\n"

/-- Concrete generator matrix file text whose matrix holds the entry 2. -/
def gTextNB : String :=
  "Number of data bits (k): 1\nNumber of parity bits (r): 1\nNumber of codeword bits (n): 2\nG=[[1,2]]\n"

/-- Concrete generator matrix file text declaring `k = 2` but holding a
1 by 3 matrix. -/
def gTextBadShape : String :=
  "Number of data bits (k): 2\nNumber of parity bits (r): 1\nNumber of codeword bits (n): 3\nG=[[1,0,1]]\n"

/-- Filesystem holding a consistent G and H pair under the file names of
width 1, both declaring `k = 2`. -/
def fsA : String → Option String := fun p =>
  if p = "m/hsiao_G_k1.txt" then some gTextA
  else if p = "m/hsiao_H_k1.txt" then some hTextA
  else none

/-- Filesystem holding, under the file names of width 2, a G file
declaring `k = 2` and an H file declaring `k = 3`. -/
def fsB : String → Option String := fun p =>
  if p = "m/hsiao_G_k2.txt" then some gTextA
  else if p = "m/hsiao_H_k2.txt" then some hTextB
  else none

/-- Filesystem holding, under the G file name of width 1, a file whose
matrix has the non-binary entry 2. -/
def fsNB : String → Option String := fun p =>
  if p = "m/hsiao_G_k1.txt" then some gTextNB else none

/-- A two dimensional `npShape` determines the row count and the common
row length. -/
lemma npShape_two (mat : List (List Nat)) (a b : Nat)
    (h : npShape mat = some [a, b]) :
    mat.length = a ∧ ∀ row ∈ mat, row.length = b := by
  cases mat with
  | nil => simp [npShape] at h
  | cons row rest =>
    simp only [npShape] at h
    split at h
    · rename_i hall
      obtain ⟨h1, h2⟩ : (row :: rest).length = a ∧ row.length = b := by
        simpa using h
      refine ⟨h1, ?_⟩
      intro q hq
      rcases List.mem_cons.mp hq with rfl | hq
      · exact h2
      · have hlen := List.all_eq_true.mp hall q hq
        have hq' : q.length = row.length := by simpa using hlen
        rw [hq', h2]
    · exact absurd h (by simp)

/-- Entry access into a matrix column: the `i`-th entry of column `j` is
the `j`-th entry of row `i`. -/
lemma column_getD (M : List (List Nat)) (j i : Nat) (h : i < M.length) :
    (column M j).getD i 0 = (M.getD i []).getD j 0 := by
  unfold column
  rw [List.getD_eq_getElem?_getD, List.getElem?_map, List.getElem?_eq_getElem h,
    List.getD_eq_getElem M [] h]
  rfl

/-- The reversal of `range n` enumerates `n - 1 - i` at position `i`. -/
lemma range_reverse (n : Nat) :
    (List.range n).reverse = (List.range n).map (fun i => n - 1 - i) := by
  apply List.ext_getElem
  · simp
  · intro i h1 h2
    have hi : i < n := by simpa using h2
    rw [List.getElem_reverse]
    simp [List.getElem_range, List.getElem_map]

/-- Mapping over a list of rows is mapping the row index over the index
range. -/
lemma map_eq_range_map (M : List (List Nat)) {β : Type} (f : List Nat → β) :
    M.map f = (List.range M.length).map (fun i => f (M.getD i [])) := by
  apply List.ext_getElem
  · simp
  · intro i h1 h2
    have hi : i < M.length := by simpa using h1
    rw [List.getElem_map, List.getElem_map, List.getElem_range,
      List.getD_eq_getElem M [] hi]

/-- C8: a requested width that is not a positive integer makes
`parse_g_and_h_files` fail with the invalid-argument error
(`ValueError: k must be positive`) before any file for that width is
located or read: the result is this error for every filesystem, at
whatever point of the width list the non-positive width is reached. -/
theorem nonpositive_width_rejected :
    (∀ (fs : String → Option String) (dir : String) (k : Int)
       (rest : List Int) (codes : List (Nat × CodeEntry)), k ≤ 0 →
       parseGHLoop fs dir (k :: rest) codes =
         Except.error (EccError.kNotPositive k))
    ∧ (∀ (fs : String → Option String) (dir : String) (k : Int)
       (rest : List Int), k ≤ 0 →
       parse_g_and_h_files fs dir (k :: rest) =
         Except.error (EccError.kNotPositive k)) := by
  constructor
  · intro fs dir k rest codes hk
    simp [parseGHLoop, hk]
  · intro fs dir k rest hk
    simp [parse_g_and_h_files, parseGHLoop, hk]

/-- Witness for C8 at the concrete width 0 on an empty filesystem. -/
theorem nonpositive_width_rejected_witness :
    parse_g_and_h_files (fun _ => none) "m" [(0 : Int)] =
      Except.error (EccError.kNotPositive 0) :=
  nonpositive_width_rejected.2 (fun _ => none) "m" 0 [] (by decide)

/-- C6 counterexample: a file missing all header fields fails, but the
raised error is the AttributeError of `.group` on a failed `re.search`,
whose message carries no file path at all, not a parse error including
the file path. -/
theorem header_error_no_path_counterexample :
    parse_matrix_file "m/hsiao_G_k1.txt" 'G' "G = [[1]]" =
      Except.error EccError.attributeNoneGroup ∧
    errPaths EccError.attributeNoneGroup = [] := by
  exact ⟨by decide, rfl⟩

/-- C6 amended: when any of the three header regex searches finds no
match (field missing or non-numeric), parsing fails with the
AttributeError raised by `.group(1)` on `None`, and that error carries no
file path. -/
theorem header_missing_attribute_error (path : String) (symbol : Char)
    (text : String)
    (h : searchHeader kLabel text.data = none ∨
         searchHeader rLabel text.data = none ∨
         searchHeader nLabel text.data = none) :
    parse_matrix_file path symbol text =
      Except.error EccError.attributeNoneGroup ∧
    errPaths EccError.attributeNoneGroup = [] := by
  refine ⟨?_, rfl⟩
  rcases h with h | h | h
  · simp [parse_matrix_file, h]
  · cases hk : searchHeader kLabel text.data <;>
      simp [parse_matrix_file, hk, h]
  · cases hk : searchHeader kLabel text.data <;>
      cases hr : searchHeader rLabel text.data <;>
      simp [parse_matrix_file, hk, hr, h]

/-- Witness for the amended C6 at a concrete file with a non-numeric `k`
header value. -/
theorem header_missing_attribute_error_witness :
    parse_matrix_file "p" 'G'
        "Number of data bits (k): x\nG = [[1]]" =
      Except.error EccError.attributeNoneGroup ∧
    errPaths EccError.attributeNoneGroup = [] :=
  header_missing_attribute_error "p" 'G'
    "Number of data bits (k): x\nG = [[1]]" (Or.inl (by decide))

/-- C9 counterexample: for the generator matrix `[[1, 0]]` with `r = 1`,
the single parity column (column `k + 0 = 1`) has zero nonzero entries,
yet encoder compilation does not fail: it returns normally and the
emitted binding `let parity_0 = ;` holds an empty XOR chain. -/
theorem empty_xor_counterexample :
    ((List.range 1).filter
        (fun row => (([[1, 0]] : List (List Nat)).getD row []).getD 1 0 != 0)
      = []) ∧
    G_to_x [[1, 0]] 1 =
      "            let parity_0 = ;\n            (parity_0) as uN[MAX_PARITY_WIDTH]" := by
  exact ⟨by decide, by decide⟩

/-- C9 amended: expression compilation does not fail fast on a parity or
syndrome source with zero nonzero entries; it silently emits a binding
whose XOR chain is empty. -/
theorem empty_sources_emit_empty_xor :
    (∀ (col : List Nat) (i : Nat), (∀ v ∈ col, v = 0) →
       G_col_to_x col i = "            let parity_" ++ toString i ++ " = ;")
    ∧ (∀ (row : List Nat) (j : Nat), (∀ v ∈ row, v = 0) →
       syndrome_bit_to_x row j =
         "            let syndrome_" ++ toString j ++ " = ;") := by
  have hfilter : ∀ (l : List Nat), (∀ v ∈ l, v = 0) →
      (List.range l.length).filter (fun i => l.getD i 0 != 0) = [] := by
    intro l hl
    rw [List.filter_eq_nil_iff]
    intro i hi
    have hlt : i < l.length := List.mem_range.mp hi
    have h0 : l[i] = 0 := hl _ (List.getElem_mem hlt)
    simp [List.getElem?_eq_getElem hlt, h0]
  have happ : ∀ (s : String), (s ++ " = ") ++ "" ++ ";" = s ++ " = ;" := by
    intro s
    rw [String.append_empty, String.append_assoc]
    exact congrArg (fun t => s ++ t) (by decide)
  constructor
  · intro col i hcol
    unfold G_col_to_x
    rw [hfilter col hcol]
    exact happ _
  · intro row j hrow
    unfold syndrome_bit_to_x
    rw [hfilter row hrow]
    exact happ _

/-- Witness for the amended C9 at the concrete all-zero column and row. -/
theorem empty_sources_emit_empty_xor_witness :
    G_col_to_x [0, 0] 0 = "            let parity_" ++ toString 0 ++ " = ;" ∧
    syndrome_bit_to_x [0] 5 =
      "            let syndrome_" ++ toString 5 ++ " = ;" :=
  ⟨empty_sources_emit_empty_xor.1 [0, 0] 0 (by decide),
   empty_sources_emit_empty_xor.2 [0] 5 (by decide)⟩

/-- C10: after a successful parse of both files of a requested width, the
code is stored under the key `k_g` read from the G file header, whatever
the requested width was; nothing compares `k_g` with the requested
width. -/
theorem codes_keyed_by_gfile_header (fs : String → Option String)
    (dir : String) (k : Int) (rest : List Int)
    (codes : List (Nat × CodeEntry)) (gText hText : String)
    (kg rg ng : Nat) (G H : List (List Nat))
    (hk : 0 < k)
    (hgf : fs (pathJoin dir (gFileName k)) = some gText)
    (hgp : parse_matrix_file (pathJoin dir (gFileName k)) 'G' gText =
      Except.ok (kg, rg, ng, G))
    (hhf : fs (pathJoin dir (hFileName k)) = some hText)
    (hhp : parse_matrix_file (pathJoin dir (hFileName k)) 'H' hText =
      Except.ok (kg, rg, ng, H)) :
    parseGHLoop fs dir (k :: rest) codes =
      parseGHLoop fs dir rest (dictInsert kg (rg, ng, G, H) codes) := by
  have hk' : ¬ k ≤ 0 := by omega
  simp [parseGHLoop, hk', hgf, hgp, hhf, hhp]

/-- Witness for C10: requesting width 1 on a filesystem whose width-1
files declare `k = 2` returns a mapping keyed by 2, a key different from
every requested width. -/
theorem codes_keyed_by_gfile_header_witness :
    parse_g_and_h_files fsA "m" [(1 : Int)] =
      Except.ok [(2, (1, 3, [[1, 0, 1], [0, 1, 1]], [[1, 1, 1]]))] ∧
    ¬ ((2 : Int) ∈ [(1 : Int)]) := by
  constructor
  · show parseGHLoop fsA "m" [(1 : Int)] [] = _
    rw [codes_keyed_by_gfile_header fsA "m" 1 [] [] gTextA hTextA 2 1 3
      [[1, 0, 1], [0, 1, 1]] [[1, 1, 1]]
      (by decide) (by decide) (by decide) (by decide) (by decide)]
    decide
  · decide

/-- C4: with both matrix files of a width successfully parsed, any
disagreement between the two header triples fails with the consistency
error naming the first mismatched field in the order `k`, `r`, `n` and
carrying both file paths; agreement on all three fields raises no
consistency error and the loop proceeds to the remaining widths. -/
theorem gh_header_consistency (fs : String → Option String)
    (dir : String) (k : Int) (rest : List Int)
    (codes : List (Nat × CodeEntry)) (gText hText : String)
    (kg rg ng kh rh nh : Nat) (G H : List (List Nat))
    (hk : 0 < k)
    (hgf : fs (pathJoin dir (gFileName k)) = some gText)
    (hgp : parse_matrix_file (pathJoin dir (gFileName k)) 'G' gText =
      Except.ok (kg, rg, ng, G))
    (hhf : fs (pathJoin dir (hFileName k)) = some hText)
    (hhp : parse_matrix_file (pathJoin dir (hFileName k)) 'H' hText =
      Except.ok (kh, rh, nh, H)) :
    ((kg, rg, ng) ≠ (kh, rh, nh) →
      (kg ≠ kh ∧ parseGHLoop fs dir (k :: rest) codes =
        Except.error (EccError.differentK (pathJoin dir (gFileName k))
          (pathJoin dir (hFileName k)))) ∨
      (kg = kh ∧ rg ≠ rh ∧ parseGHLoop fs dir (k :: rest) codes =
        Except.error (EccError.differentR (pathJoin dir (gFileName k))
          (pathJoin dir (hFileName k)))) ∨
      (kg = kh ∧ rg = rh ∧ ng ≠ nh ∧ parseGHLoop fs dir (k :: rest) codes =
        Except.error (EccError.differentN (pathJoin dir (gFileName k))
          (pathJoin dir (hFileName k)))))
    ∧ ((kg, rg, ng) = (kh, rh, nh) →
      parseGHLoop fs dir (k :: rest) codes =
        parseGHLoop fs dir rest (dictInsert kg (rg, ng, G, H) codes)) := by
  have hk' : ¬ k ≤ 0 := by omega
  constructor
  · intro hne
    by_cases h1 : kg = kh
    · by_cases h2 : rg = rh
      · have h3 : ng ≠ nh := fun h3 => hne (by rw [h1, h2, h3])
        exact Or.inr (Or.inr ⟨h1, h2, h3,
          by simp [parseGHLoop, hk', hgf, hgp, hhf, hhp, h1, h2, h3]⟩)
      · exact Or.inr (Or.inl ⟨h1, h2,
          by simp [parseGHLoop, hk', hgf, hgp, hhf, hhp, h1, h2]⟩)
    · exact Or.inl ⟨h1,
        by simp [parseGHLoop, hk', hgf, hgp, hhf, hhp, h1]⟩
  · intro heq
    have h1 : kg = kh := congrArg Prod.fst heq
    have h2 : rg = rh := congrArg (fun p => p.2.1) heq
    have h3 : ng = nh := congrArg (fun p => p.2.2) heq
    simp [parseGHLoop, hk', hgf, hgp, hhf, hhp, h1, h2, h3]

/-- Witness for C4: a G file declaring `(k, r, n) = (2, 1, 3)` paired
with an H file declaring `(3, 1, 4)` under the file names of width 2
fails with the consistency error naming `k` and both file paths. -/
theorem gh_header_consistency_witness :
    parse_g_and_h_files fsB "m" [(2 : Int)] =
      Except.error (EccError.differentK "m/hsiao_G_k2.txt" "m/hsiao_H_k2.txt") := by
  have h := (gh_header_consistency fsB "m" 2 [] [] gTextA hTextB
    2 1 3 3 1 4 [[1, 0, 1], [0, 1, 1]] [[1, 1, 1, 1]]
    (by decide) (by decide) (by decide) (by decide) (by decide)).1 (by decide)
  show parseGHLoop fsB "m" [(2 : Int)] [] = _
  rcases h with ⟨-, h⟩ | ⟨h1, -⟩ | ⟨h1, -⟩
  · rw [h]; decide
  · exact absurd h1 (by decide)
  · exact absurd h1 (by decide)

/-- C5 counterexample: the concrete file `gTextOV`, whose bracketed
literal holds the entry 256 (an entry that is not 0 and not 1), does not
fail with the validation error naming the offending file and symbol:
`np.array(..., dtype=np.uint8)` raises its OverflowError first, an error
that names no file and no symbol. -/
theorem nonbinary_entry_overflow_counterexample :
    parse_matrix_file "m/hsiao_G_k1.txt" 'G' gTextOV =
      Except.error EccError.uint8OutOfBounds ∧
    errPaths EccError.uint8OutOfBounds = [] := by
  exact ⟨by decide, rfl⟩

/-- C5 amended: a matrix literal all of whose entries are representable
in uint8 (below 256) and holding an entry other than 0 and 1 makes
parsing fail with the validation error naming the symbol and the file
path (an entry outside the uint8 range instead makes the `np.array`
conversion itself fail, with an error naming neither); and any parse
failure aborts the run before any expression compilation, so `main_run`
returns that same error and builds no fragment. -/
theorem nonbinary_entry_validation :
    (∀ (path : String) (symbol : Char) (text : String)
       (k r n mEnd start stop : Nat) (toks : List MatTok)
       (mat : List (List Nat)) (shape : List Nat),
       searchHeader kLabel text.data = some k →
       searchHeader rLabel text.data = some r →
       searchHeader nLabel text.data = some n →
       searchSymbolEnd symbol false 0 text.data = some mEnd →
       findCharFrom '[' text.data mEnd = some start →
       rfindChar ']' text.data = some stop →
       ¬ stop < start →
       tokenize (pySlice text.data start (stop + 1)) = some toks →
       literalEvalMatrix toks = some mat →
       npShape mat = some shape →
       (∀ row ∈ mat, ∀ v ∈ row, v < 256) →
       (∃ row ∈ mat, ∃ v ∈ row, v ≠ 0 ∧ v ≠ 1) →
       parse_matrix_file path symbol text =
         Except.error (EccError.nonBinary symbol path))
    ∧ (∀ (fs : String → Option String) (dir : String) (widths : List Int)
       (e : EccError),
       parse_g_and_h_files fs dir widths = Except.error e →
       main_run fs dir widths = Except.error e) := by
  constructor
  · intro path symbol text k r n mEnd start stop toks mat shape
      hk hr hn hsym hfind hrfind hord htok hlit hshape hA hbad
    have hB : ¬ (∀ row ∈ mat, ∀ v ∈ row, v = 0 ∨ v = 1) := by
      intro hall
      obtain ⟨row, hrow, v, hv, h0, h1⟩ := hbad
      rcases hall row hrow v hv with h | h
      · exact h0 h
      · exact h1 h
    simp [parse_matrix_file, hk, hr, hn, hsym, hfind, hrfind, hord,
      htok, hlit, hshape, hA, hB]
    exact hA
  · intro fs dir widths e h
    simp [main_run, h]

/-- Witness for C5: the concrete file `gTextNB` whose matrix holds the
entry 2 fails with the validation error naming G and the file path, and
the full run on a filesystem holding that file fails with the same error
before building any fragment. -/
theorem nonbinary_entry_validation_witness :
    parse_matrix_file "m/hsiao_G_k1.txt" 'G' gTextNB =
      Except.error (EccError.nonBinary 'G' "m/hsiao_G_k1.txt") ∧
    main_run fsNB "m" [(1 : Int)] =
      Except.error (EccError.nonBinary 'G' "m/hsiao_G_k1.txt") := by
  constructor
  · exact nonbinary_entry_validation.1 "m/hsiao_G_k1.txt" 'G' gTextNB
      1 1 2 89 89 95
      [MatTok.lb, MatTok.lb, MatTok.num 1, MatTok.comma, MatTok.num 2,
        MatTok.rb, MatTok.rb]
      [[1, 2]] [1, 2]
      (by decide) (by decide) (by decide) (by decide) (by decide)
      (by decide) (by decide) (by decide) (by decide) (by decide)
      (by decide) ⟨[1, 2], by decide, 2, by decide, by decide, by decide⟩
  · exact nonbinary_entry_validation.2 fsNB "m" [(1 : Int)]
      (EccError.nonBinary 'G' "m/hsiao_G_k1.txt") (by decide)

/-- C7: a successfully parsed matrix file yields a matrix with exactly
`k` rows (symbol G) or `r` rows (symbol H) and `n` columns; and a file
that reaches the shape check with a shape differing from the expected one
fails with the shape error carrying the actual and the expected shape. -/
theorem parsed_matrix_shape :
    (∀ (path : String) (symbol : Char) (text : String) (k r n : Nat)
       (arr : List (List Nat)),
       parse_matrix_file path symbol text = Except.ok (k, r, n, arr) →
       (symbol = 'G' → arr.length = k) ∧ (symbol = 'H' → arr.length = r) ∧
       (∀ row ∈ arr, row.length = n))
    ∧ (∀ (path : String) (symbol : Char) (text : String)
       (k r n mEnd start stop : Nat) (toks : List MatTok)
       (mat : List (List Nat)) (shape : List Nat),
       searchHeader kLabel text.data = some k →
       searchHeader rLabel text.data = some r →
       searchHeader nLabel text.data = some n →
       searchSymbolEnd symbol false 0 text.data = some mEnd →
       findCharFrom '[' text.data mEnd = some start →
       rfindChar ']' text.data = some stop →
       ¬ stop < start →
       tokenize (pySlice text.data start (stop + 1)) = some toks →
       literalEvalMatrix toks = some mat →
       npShape mat = some shape →
       (∀ row ∈ mat, ∀ v ∈ row, v < 256) →
       (∀ row ∈ mat, ∀ v ∈ row, v = 0 ∨ v = 1) →
       shape ≠ [(if symbol = 'G' then k else r), n] →
       parse_matrix_file path symbol text =
         Except.error (EccError.shapeMismatch symbol shape
           [(if symbol = 'G' then k else r), n] path)) := by
  constructor
  · intro path symbol text k r n arr hok
    simp only [parse_matrix_file] at hok
    repeat' split at hok
    all_goals try exact Except.noConfusion hok
    all_goals (
      injection hok with h
      obtain ⟨h1, h2, h3, h4⟩ : _ = k ∧ _ = r ∧ _ = n ∧ _ = arr := by
        rw [Prod.mk.injEq, Prod.mk.injEq, Prod.mk.injEq] at h
        exact h
      subst h1
      subst h2
      subst h3
      subst h4)
    · rename_i x2 mat0 hlit x1 shape0 hnp hrange hbin hsymG hshapeEq
      have hsym' : symbol = 'G' := by simpa using hsymG
      rw [beq_iff_eq] at hshapeEq
      rw [hshapeEq] at hnp
      obtain ⟨hlen, hrows⟩ := npShape_two _ _ _ hnp
      refine ⟨fun _ => hlen, fun hH => ?_, hrows⟩
      rw [hsym'] at hH
      exact absurd hH (by decide)
    · rename_i x2 mat0 hlit x1 shape0 hnp hrange hbin hsymG hshapeEq
      rw [beq_iff_eq] at hshapeEq
      rw [hshapeEq] at hnp
      obtain ⟨hlen, hrows⟩ := npShape_two _ _ _ hnp
      refine ⟨fun hG => ?_, fun _ => hlen, hrows⟩
      exact absurd (by simp [hG]) hsymG
  · intro path symbol text k r n mEnd start stop toks mat shape
      hk hr hn hsym hfind hrfind hord htok hlit hshape hA hBin hne
    simp [parse_matrix_file, hk, hr, hn, hsym, hfind, hrfind, hord,
      htok, hlit, hshape, hne]
    rw [if_pos hA, if_pos hBin]

/-- Witness for C7: the well formed file `gTextA` parses to a 2 by 3
matrix, and the concrete file `gTextBadShape`, declaring `k = 2` but
holding one row of three entries, fails with the shape error reporting
actual shape `[1, 3]` against expected `[2, 3]`. -/
theorem parsed_matrix_shape_witness :
    (('G' : Char) = 'G' → ([[1, 0, 1], [0, 1, 1]] : List (List Nat)).length = 2) ∧
    (('G' : Char) = 'H' → ([[1, 0, 1], [0, 1, 1]] : List (List Nat)).length = 1) ∧
    (∀ row ∈ ([[1, 0, 1], [0, 1, 1]] : List (List Nat)), row.length = 3) ∧
    parse_matrix_file "p" 'G' gTextBadShape =
      Except.error (EccError.shapeMismatch 'G' [1, 3] [2, 3] "p") := by
  have h1 := parsed_matrix_shape.1 "p" 'G' gTextA 2 1 3
    [[1, 0, 1], [0, 1, 1]] (by decide)
  have h2 := parsed_matrix_shape.2 "p" 'G' gTextBadShape 2 1 3 89 89 97
    [MatTok.lb, MatTok.lb, MatTok.num 1, MatTok.comma, MatTok.num 0,
      MatTok.comma, MatTok.num 1, MatTok.rb, MatTok.rb]
    [[1, 0, 1]] [1, 3]
    (by decide) (by decide) (by decide) (by decide) (by decide) (by decide)
    (by decide) (by decide) (by decide) (by decide) (by decide) (by decide)
    (by decide)
  refine ⟨h1.1, ?_, h1.2.2, ?_⟩
  · intro hGH
    exact absurd hGH (by decide)
  · rw [h2]
    decide

lemma foldl_append_eq (l : List String) :
    ∀ acc : String, l.foldl (· ++ ·) acc = acc ++ l.foldl (· ++ ·) "" := by
  induction l with
  | nil => intro acc; exact (String.append_empty acc).symm
  | cons c cs ih =>
    intro acc
    show cs.foldl (· ++ ·) (acc ++ c) = acc ++ cs.foldl (· ++ ·) ("" ++ c)
    rw [ih (acc ++ c), ih ("" ++ c), String.empty_append, String.append_assoc]

lemma join_cons (s : String) (l : List String) :
    String.join (s :: l) = s ++ String.join l := by
  show l.foldl (· ++ ·) ("" ++ s) = s ++ String.join l
  rw [String.empty_append]
  exact foldl_append_eq l s

lemma decodeBits_join (col : List Nat) (hb : ∀ v ∈ col, v = 0 ∨ v = 1) :
    decodeBits (String.join (col.map (fun v => toString v))).data = some col := by
  induction col with
  | nil => rfl
  | cons v rest ih =>
    have hv := hb v (List.mem_cons_self v rest)
    have hrest : ∀ u ∈ rest, u = 0 ∨ u = 1 :=
      fun u hu => hb u (List.mem_cons_of_mem _ hu)
    rw [List.map_cons, join_cons, String.data_append]
    rcases hv with rfl | rfl
    · have h0 : (toString (0 : Nat)).data = ['0'] := by decide
      rw [h0]
      show (decodeBits (String.join (List.map (fun v => toString v) rest)).data).map
          (fun l => 0 :: l) = some (0 :: rest)
      rw [ih hrest]
      rfl
    · have h1 : (toString (1 : Nat)).data = ['1'] := by decide
      rw [h1]
      show (decodeBits (String.join (List.map (fun v => toString v) rest)).data).map
          (fun l => 1 :: l) = some (1 :: rest)
      rw [ih hrest]
      rfl

/-- C1: encoder compilation emits, for each parity index `i` in `[0, r)`
in increasing order, a binding stating that parity bit `i` is the XOR of
the message bits at exactly the rows where column `k + i` of G is 1, and
the final value concatenates the bindings in the descending order
`parity_<r-1> ++ ... ++ parity_0`, cast to the shared maximum parity
width. -/
theorem G_to_x_spec (G : List (List Nat)) (k r : Nat)
    (hk : G.length = k)
    (hlen : ∀ row ∈ G, row.length = k + r)
    (hbin : ∀ row ∈ G, ∀ v ∈ row, v = 0 ∨ v = 1) :
    G_to_x G r =
      String.intercalate "\n"
        (((List.range r).map (fun i =>
            "            let parity_" ++ toString i ++ " = " ++
            String.intercalate " ^ "
              (((List.range k).filter
                  (fun row => (G.getD row []).getD (k + i) 0 == 1)).map
                (fun row => "m[" ++ toString row ++ "+:u1]")) ++ ";"))
          ++ [textwrapIndent "            "
              ("(" ++ String.intercalate " ++ "
                  (((List.range r).reverse).map
                    (fun i => "parity_" ++ toString i)) ++
                ") as uN[MAX_PARITY_WIDTH]")]) := by
  subst hk
  unfold G_to_x
  apply congrArg (String.intercalate "\n")
  refine congrArg₂ (· ++ ·) ?_ ?_
  · apply List.map_congr_left
    intro i hi
    unfold G_col_to_x
    have hcl : (column G (G.length + i)).length = G.length := by simp [column]
    rw [hcl]
    have hfeq : (List.range G.length).filter
          (fun row => (column G (G.length + i)).getD row 0 != 0)
        = (List.range G.length).filter
          (fun row => (G.getD row []).getD (G.length + i) 0 == 1) := by
      apply List.filter_congr
      intro row hrow
      have hrlt : row < G.length := List.mem_range.mp hrow
      rw [column_getD G _ row hrlt]
      have hGmem : G.getD row [] ∈ G := by
        rw [List.getD_eq_getElem G [] hrlt]
        exact List.getElem_mem hrlt
      have hbd : (G.getD row []).getD (G.length + i) 0 = 0 ∨
          (G.getD row []).getD (G.length + i) 0 = 1 := by
        by_cases hj : G.length + i < (G.getD row []).length
        · have hmem : (G.getD row []).getD (G.length + i) 0 ∈ G.getD row [] := by
            rw [List.getD_eq_getElem _ _ hj]
            exact List.getElem_mem hj
          exact hbin _ hGmem _ hmem
        · left
          exact List.getD_eq_default _ _ (by omega)
      rcases hbd with h | h <;> rw [h] <;> rfl
    rw [hfeq]
  · refine congrArg (fun s => [s]) ?_
    apply congrArg (textwrapIndent "            ")
    refine congrArg₂ (· ++ ·) (congrArg₂ (· ++ ·) rfl ?_) rfl
    rw [range_reverse, List.map_map]
    apply congrArg (String.intercalate " ++ ")
    apply List.map_congr_left
    intro i hi
    simp only [Function.comp_apply]
    have : r - i - 1 = r - 1 - i := by omega
    rw [this]

/-- Witness for C1: the encoder output of the concrete systematic code
`G = [[1,0,1],[0,1,1]]` (`k = 2`, `r = 1`), obtained through the C1
theorem, XORs message bits 0 and 1 into the single parity binding. -/
theorem G_to_x_spec_witness :
    G_to_x [[1, 0, 1], [0, 1, 1]] 1 =
      "            let parity_0 = m[0+:u1] ^ m[1+:u1];\n            (parity_0) as uN[MAX_PARITY_WIDTH]" := by
  rw [G_to_x_spec [[1, 0, 1], [0, 1, 1]] 2 1 (by decide) (by decide) (by decide)]
  decide

/-- C2: syndrome compilation emits, for each `i` in `[0, r)`, a binding
labeled `syndrome_<r-1-i>` computed as the XOR of the codeword bits at
exactly the columns where row `i` of H is 1 (row 0 yields the label
`r - 1`, the most significant), concatenates the bindings in the order
`syndrome_<r-1> ++ ... ++ syndrome_0`, casts to the shared maximum
parity width and binds the result to the single value `syndrome`. -/
theorem syndrome_to_x_spec (H : List (List Nat)) (r n : Nat)
    (hr : H.length = r)
    (hlen : ∀ row ∈ H, row.length = n)
    (hbin : ∀ row ∈ H, ∀ v ∈ row, v = 0 ∨ v = 1) :
    syndrome_to_x H =
      String.intercalate "\n"
        (((List.range r).map (fun i =>
            "            let syndrome_" ++ toString (r - 1 - i) ++ " = " ++
            String.intercalate " ^ "
              (((List.range n).filter
                  (fun j => (H.getD i []).getD j 0 == 1)).map
                (fun j => "cw[" ++ toString j ++ "+:u1]")) ++ ";"))
          ++ [textwrapIndent "            "
              ("let syndrome = " ++
                ("(" ++ String.intercalate " ++ "
                    (((List.range r).reverse).map
                      (fun i => "syndrome_" ++ toString i)) ++
                  ") as uN[MAX_PARITY_WIDTH]") ++ ";")]) := by
  subst hr
  unfold syndrome_to_x
  apply congrArg (String.intercalate "\n")
  refine congrArg₂ (· ++ ·) ?_ ?_
  · apply List.map_congr_left
    intro i hi
    have hir : i < H.length := List.mem_range.mp hi
    unfold syndrome_bit_to_x
    have hHmem : H.getD i [] ∈ H := by
      rw [List.getD_eq_getElem H [] hir]
      exact List.getElem_mem hir
    have hrl : (H.getD i []).length = n := hlen _ hHmem
    rw [hrl]
    have harg : H.length - i - 1 = H.length - 1 - i := by omega
    rw [harg]
    refine congrArg₂ (· ++ ·) (congrArg₂ (· ++ ·) rfl ?_) rfl
    refine congrArg (String.intercalate " ^ ") ?_
    refine congrArg (List.map (fun j => "cw[" ++ toString j ++ "+:u1]")) ?_
    apply List.filter_congr
    intro j hj
    have hbd : (H.getD i []).getD j 0 = 0 ∨ (H.getD i []).getD j 0 = 1 := by
      by_cases hjj : j < (H.getD i []).length
      · have hmem : (H.getD i []).getD j 0 ∈ H.getD i [] := by
          rw [List.getD_eq_getElem _ _ hjj]
          exact List.getElem_mem hjj
        exact hbin _ hHmem _ hmem
      · left
        exact List.getD_eq_default _ _ (by omega)
    rcases hbd with h | h <;> rw [h] <;> rfl
  · refine congrArg (fun s => [s]) ?_
    apply congrArg (textwrapIndent "            ")
    refine congrArg₂ (· ++ ·) (congrArg₂ (· ++ ·) rfl ?_) rfl
    refine congrArg₂ (· ++ ·) (congrArg₂ (· ++ ·) rfl ?_) rfl
    rw [range_reverse, List.map_map]
    apply congrArg (String.intercalate " ++ ")
    apply List.map_congr_left
    intro i hi
    simp only [Function.comp_apply]
    have harg : H.length - i - 1 = H.length - 1 - i := by omega
    rw [harg]

/-- Witness for C2: the decoder syndrome output of the concrete
`H = [[1,1,0],[0,1,1]]` (`r = 2`, `n = 3`), obtained through the C2
theorem: row 0 produces the binding labeled 1, row 1 the binding labeled
0, concatenated descending into the `syndrome` value. -/
theorem syndrome_to_x_spec_witness :
    syndrome_to_x [[1, 1, 0], [0, 1, 1]] =
      "            let syndrome_1 = cw[0+:u1] ^ cw[1+:u1];\n            let syndrome_0 = cw[1+:u1] ^ cw[2+:u1];\n            let syndrome = (syndrome_1 ++ syndrome_0) as uN[MAX_PARITY_WIDTH];" := by
  rw [syndrome_to_x_spec [[1, 1, 0], [0, 1, 1]] 2 3 (by decide) (by decide) (by decide)]
  decide

/-- C3: parity-check-column compilation emits for each codeword column
`j` a width-`r` binary literal whose digits are column `j` of H read top
row first (most significant), cast to the shared maximum parity width,
and the combined table concatenates the column constants in descending
order; decoding the emitted bit pattern (top row as most significant
bit) reproduces the column exactly. -/
theorem H_to_x_spec (H : List (List Nat)) (r n : Nat)
    (hr : H.length = r) (hr0 : 0 < r)
    (hlen : ∀ row ∈ H, row.length = n)
    (hbin : ∀ row ∈ H, ∀ v ∈ row, v = 0 ∨ v = 1) :
    (H_to_x H =
      String.intercalate "\n"
        (((List.range n).map (fun j =>
            "            let parity_check_matrix_" ++ toString j ++ " = u" ++
            toString r ++ ":0b" ++
            String.join (((List.range r).map
                (fun i => (H.getD i []).getD j 0)).map (fun v => toString v)) ++
            " as uN[MAX_PARITY_WIDTH];"))
          ++ [textwrapIndent "            "
              ("let parity_check_matrix = " ++ String.intercalate " ++ "
                  (((List.range n).reverse).map
                    (fun j => "parity_check_matrix_" ++ toString j)) ++ ";")]))
    ∧ (∀ j : Nat,
        decodeBits (String.join (((List.range r).map
            (fun i => (H.getD i []).getD j 0)).map (fun v => toString v))).data
          = some ((List.range r).map (fun i => (H.getD i []).getD j 0))) := by
  subst hr
  have hcolbin : ∀ (j : Nat) (v : Nat),
      v ∈ (List.range H.length).map (fun i => (H.getD i []).getD j 0) →
      v = 0 ∨ v = 1 := by
    intro j v hv
    obtain ⟨i, hi, rfl⟩ := List.mem_map.mp hv
    have hir : i < H.length := List.mem_range.mp hi
    have hHmem : H.getD i [] ∈ H := by
      rw [List.getD_eq_getElem H [] hir]
      exact List.getElem_mem hir
    by_cases hjj : j < (H.getD i []).length
    · have hmem : (H.getD i []).getD j 0 ∈ H.getD i [] := by
        rw [List.getD_eq_getElem _ _ hjj]
        exact List.getElem_mem hjj
      exact hbin _ hHmem _ hmem
    · left
      exact List.getD_eq_default _ _ (by omega)
  constructor
  · unfold H_to_x H_col_to_x
    have hn0 : (H.getD 0 []).length = n := by
      refine hlen _ ?_
      rw [List.getD_eq_getElem H [] hr0]
      exact List.getElem_mem hr0
    rw [hn0]
    apply congrArg (String.intercalate "\n")
    refine congrArg₂ (· ++ ·) ?_ ?_
    · apply List.map_congr_left
      intro j hj
      have hcl : (column H j).length = H.length := by simp [column]
      have hcol : column H j =
          (List.range H.length).map (fun i => (H.getD i []).getD j 0) := by
        unfold column
        exact map_eq_range_map H _
      rw [hcl, hcol]
    · refine congrArg (fun s => [s]) ?_
      apply congrArg (textwrapIndent "            ")
      refine congrArg₂ (· ++ ·) (congrArg₂ (· ++ ·) rfl ?_) rfl
      rw [range_reverse, List.map_map]
      apply congrArg (String.intercalate " ++ ")
      apply List.map_congr_left
      intro j hj
      simp only [Function.comp_apply]
      have harg : n - j - 1 = n - 1 - j := by omega
      rw [harg]
  · intro j
    exact decodeBits_join _ (hcolbin j)

/-- Witness for C3 at the concrete `H = [[1,1,0],[0,1,1]]`: the emitted
table and the round trip of column 2, both obtained through the C3
theorem. -/
theorem H_to_x_spec_witness :
    H_to_x [[1, 1, 0], [0, 1, 1]] =
      "            let parity_check_matrix_0 = u2:0b10 as uN[MAX_PARITY_WIDTH];\n            let parity_check_matrix_1 = u2:0b11 as uN[MAX_PARITY_WIDTH];\n            let parity_check_matrix_2 = u2:0b01 as uN[MAX_PARITY_WIDTH];\n            let parity_check_matrix = parity_check_matrix_2 ++ parity_check_matrix_1 ++ parity_check_matrix_0;" ∧
    decodeBits (String.join (((List.range 2).map
        (fun i => (([[1, 1, 0], [0, 1, 1]] : List (List Nat)).getD i []).getD 2 0)).map
      (fun v => toString v))).data = some [0, 1] := by
  have h := H_to_x_spec [[1, 1, 0], [0, 1, 1]] 2 3 (by decide) (by decide)
    (by decide) (by decide)
  constructor
  · rw [h.1]
    decide
  · rw [h.2 2]
    decide
